import Mathlib

/-!
Verification development for the pipx spec export/import subsystem.

The definitions below are a shallow embedding of the Python sources under
`src/pipx/commands/` (`pipx_spec.py`, `import_export.py`, `list_packages.py`,
`uninject.py`).  Pure helpers become Lean functions; code that touches the
file system, the network, or subprocesses is modelled by passing the relevant
world state (on-disk metadata, existing paths, index responses) explicitly and
by returning the sequence of external operations the code would perform.
Python exceptions become `Except` errors.  Repository modules that are only
referenced by the analyzed commands (`pipx.package_specifier`,
`pipx.pipx_metadata_file`, `pipx.venv`, `pipx.constants`) are modelled from
the specification, as marked by their doc comments.
-/

/-- Python exceptions that the modelled code can raise. -/
inductive PyErr where
  | pipxError (msg : String)
  | keyError (key : String)
  | valueError
  | indexError
deriving Repr, DecidableEq

/-- Modelled from the spec: exit status 0 for success (`pipx.constants`). -/
def EXIT_CODE_OK : Nat := 0

/-- Modelled from the spec: "a distinct code for export aborted due to missing
metadata" (`pipx.constants.EXIT_CODE_EXPORT_MISSING_METADATA`); the exact
value is not in the analyzed sources, only its distinctness from 0 and 1
matters. -/
def EXIT_CODE_EXPORT_MISSING_METADATA : Nat := 2

/-- `pipx_spec.py`: `PIPX_SPEC_VERSION = "0.1"`. -/
def PIPX_SPEC_VERSION : String := "0.1"

/-- Modelled from the spec: the schema version marker written by
`PipxMetadata.to_dict` (the `"version"` field of §6). -/
def PIPX_METADATA_SCHEMA_VERSION : String := "0.2"

/-- Lexicographic comparison of character lists; used to model Python's
string sorting (`sorted(...)`, `json.dump(sort_keys=True)`). -/
def charListLe : List Char → List Char → Bool
  | [], _ => true
  | _ :: _, [] => false
  | a :: as, b :: bs => if a < b then true else if b < a then false else charListLe as bs

/-- The string order induced by `charListLe` on the underlying characters. -/
def strLe (a b : String) : Prop := charListLe a.data b.data = true

instance : DecidableRel strLe := fun a b =>
  inferInstanceAs (Decidable (charListLe a.data b.data = true))

/-- Separator characters collapsed by name canonicalization. -/
def isSepChar (c : Char) : Bool := c == '-' || c == '_' || c == '.'

/-- Helper for `canonicalize_name`: lowercase and collapse separator runs,
tracking whether the previous character was a separator. -/
def collapseAux : Bool → List Char → List Char
  | _, [] => []
  | inSep, c :: rest =>
    if isSepChar c then
      if inSep then collapseAux true rest
      else '-' :: collapseAux true rest
    else c.toLower :: collapseAux false rest

/-- Modelled from the spec (glossary "Canonicalized name"): the standard
package-name normalization used by `packaging.utils.canonicalize_name` —
lowercased, with runs of `-`, `_`, `.` collapsed to a single `-`. -/
def canonicalize_name (s : String) : String := String.mk (collapseAux false s.data)

/-- Characters allowed in a PEP 503 package-name component. -/
def isNameChar (c : Char) : Bool := c.isAlphanum || c == '-' || c == '_' || c == '.'

/-- Kernel-friendly `startsWith` on the underlying character lists. -/
def strStarts (s pre : String) : Bool := pre.data.isPrefixOf s.data

/-- Modelled from the spec (§4.1 rule 1): VCS URL schemes. -/
def isVcsUrl (s : String) : Bool :=
  strStarts s "git+" || strStarts s "hg+" || strStarts s "svn+" || strStarts s "bzr+"

/-- Modelled from the spec (§4.1 rule 2): direct URL schemes. -/
def isDirectUrl (s : String) : Bool :=
  strStarts s "http://" || strStarts s "https://" || strStarts s "file://"

/-- A parsed PEP 508-style requirement: canonical name plus the optional
direct-reference URL (`name @ url`). -/
structure Pep508Req where
  name : String
  url : Option String
deriving Repr, DecidableEq

/-- Modelled from the spec (§4.1 rule 4): a simplified PEP 508-style parse
of `name[extras]version-specifier` or `name @ url`.  Returns `none` when the
string has no such reading. -/
def parsePep508 (s : String) : Option Pep508Req :=
  let name := s.data.takeWhile isNameChar
  match name with
  | [] => none
  | c0 :: _ =>
    if !c0.isAlphanum then none
    else
      let rest := String.mk ((s.data.drop name.length).dropWhile (fun c => c == ' '))
      if rest.data.isEmpty then some ⟨canonicalize_name (String.mk name), none⟩
      else if strStarts rest "==" || strStarts rest "!=" || strStarts rest "~=" ||
          strStarts rest "<" || strStarts rest ">" || strStarts rest "[" then
        some ⟨canonicalize_name (String.mk name), none⟩
      else if strStarts rest "@" then
        let url := String.mk ((rest.data.drop 1).dropWhile (fun c => c == ' '))
        if url.data.isEmpty then none
        else some ⟨canonicalize_name (String.mk name), some url⟩
      else none

/-- The classification flags produced by the specifier parser (spec §3:
`valid_url`, `valid_local_path`, `valid_pep508`). -/
structure ParsedSpecifier where
  valid_url : Bool
  valid_local_path : Bool
  valid_pep508 : Option Pep508Req
deriving Repr, DecidableEq

/-- Modelled from the spec (§4.1): classify a raw package reference.
`fs` is the set of filesystem paths that currently exist; a string is a valid
local path exactly when it resolves to an existing path (§4.1 rule 3). -/
def parse_specifier (fs : List String) (s : String) : ParsedSpecifier :=
  { valid_url := isVcsUrl s || isDirectUrl s
    valid_local_path := fs.contains s
    valid_pep508 := parsePep508 s }

/-- Modelled from the spec (§4.1): the install-path parse raises
`InvalidSpecifierError` (a `PipxError`) when no interpretation of the
specifier is installable; otherwise it returns the specifier and pip
arguments. -/
def parse_specifier_for_install (fs : List String) (s : String) (pip_args : List String) :
    Except PyErr (String × List String) :=
  let p := parse_specifier fs s
  if p.valid_url || p.valid_local_path || p.valid_pep508.isSome then .ok (s, pip_args)
  else .error (.pipxError "InvalidSpecifierError")

/-- Modelled from the spec (§6): extract the package-name key from one line
of pip-freeze output (`pipx.package_specifier.parse_pip_freeze_specifier`). -/
def parse_pip_freeze_specifier (s : String) : String :=
  canonicalize_name (String.mk (s.data.takeWhile isNameChar))

/-- Modelled from the spec (§3/§6): one installed package's persisted record
(`pipx.pipx_metadata_file.PackageInfo`); path-typed fields are carried as
strings, as they serialize. -/
structure PackageInfo where
  package : Option String
  package_or_url : Option String
  pip_args : List String
  include_apps : Bool
  include_dependencies : Bool
  apps : List String
  app_paths : List String
  apps_of_dependencies : List String
  app_paths_of_dependencies : List String
  package_version : String
  suffix : String
deriving Repr, DecidableEq

/-- Modelled from the spec (§3): an environment's aggregate metadata
(`pipx.pipx_metadata_file.PipxMetadata`); the injected-package dict is an
insertion-ordered association list, as Python dicts are. -/
structure PipxMetadata where
  main_package : PackageInfo
  injected_packages : List (String × PackageInfo)
  venv_args : List String
deriving Repr, DecidableEq

/-- Modelled from the spec (§4.2): the all-empty `PackageInfo` produced by
`PipxMetadata.read()` when no metadata file exists. -/
def PackageInfo.blank : PackageInfo :=
  { package := none, package_or_url := none, pip_args := [], include_apps := false
    include_dependencies := false, apps := [], app_paths := []
    apps_of_dependencies := [], app_paths_of_dependencies := []
    package_version := "", suffix := "" }

/-- Modelled from the spec (§4.2): the metadata value read from a venv
directory with no metadata file — the "legacy/uninitialized" sentinel with a
null main package and an empty injected map. -/
def PipxMetadata.blank : PipxMetadata :=
  { main_package := PackageInfo.blank, injected_packages := [], venv_args := [] }

/-- One entry of the `pip_freeze` map of the spec document (§6). -/
structure FreezeEntry where
  specifier : String
  local_ : Bool
deriving Repr, DecidableEq

/-- The JSON documents produced by the export path.  Filesystem paths are
serialized as plain strings (`JsonEncoderHandlesPath`), so strings suffice. -/
inductive Json where
  | null
  | bool (b : Bool)
  | str (s : String)
  | arr (xs : List Json)
  | obj (kvs : List (String × Json))

theorem charListLe_total : ∀ a b : List Char, charListLe a b = true ∨ charListLe b a = true
  | [], _ => Or.inl rfl
  | _ :: _, [] => Or.inr rfl
  | a :: as, b :: bs => by
    rcases lt_trichotomy a b with h | h | h
    · left; simp [charListLe, h]
    · subst h
      rcases charListLe_total as bs with ih | ih
      · left; simp [charListLe, lt_irrefl, ih]
      · right; simp [charListLe, lt_irrefl, ih]
    · right; simp [charListLe, h]

theorem charListLe_trans : ∀ a b c : List Char,
    charListLe a b = true → charListLe b c = true → charListLe a c = true
  | [], _, _, _, _ => rfl
  | _ :: _, [], _, hab, _ => by simp [charListLe] at hab
  | _ :: _, _ :: _, [], _, hbc => by simp [charListLe] at hbc
  | a :: as, b :: bs, c :: cs, hab, hbc => by
    simp only [charListLe] at hab hbc ⊢
    by_cases h1 : a < b
    · by_cases h2 : b < c
      · simp [lt_trans h1 h2]
      · by_cases h3 : c < b
        · simp [h2, h3] at hbc
        · have : b = c := le_antisymm (not_lt.mp h3) (not_lt.mp h2)
          subst this; simp [h1]
    · by_cases h1' : b < a
      · simp [h1, h1'] at hab
      · have : a = b := le_antisymm (not_lt.mp h1') (not_lt.mp h1)
        subst this
        by_cases h2 : a < c
        · simp [h2]
        · by_cases h3 : c < a
          · simp [h2, h3] at hbc
          · simp [h1, h1'] at hab
            simp [h2, h3] at hbc ⊢
            exact charListLe_trans as bs cs hab hbc

theorem charListLe_antisymm : ∀ a b : List Char,
    charListLe a b = true → charListLe b a = true → a = b
  | [], [], _, _ => rfl
  | [], _ :: _, _, hba => by simp [charListLe] at hba
  | _ :: _, [], hab, _ => by simp [charListLe] at hab
  | a :: as, b :: bs, hab, hba => by
    simp only [charListLe] at hab hba
    by_cases h1 : a < b
    · simp [h1, asymm h1] at hba
    · by_cases h2 : b < a
      · simp [h1, h2] at hab
      · have : a = b := le_antisymm (not_lt.mp h2) (not_lt.mp h1)
        subst this
        simp [h1, h2] at hab hba
        rw [charListLe_antisymm as bs hab hba]

instance : IsTotal String strLe := ⟨fun a b => by
  have := charListLe_total a.data b.data
  simpa [strLe] using this⟩

instance : IsTrans String strLe :=
  ⟨fun a b c hab hbc => charListLe_trans a.data b.data c.data hab hbc⟩

instance : IsAntisymm String strLe := ⟨fun a b hab hba => by
  have h := charListLe_antisymm a.data b.data hab hba
  cases a; cases b; exact congrArg String.mk h⟩

/-- `sorted(...)` on venv directory names, as Python sorts strings. -/
def sortStrings (l : List String) : List String := List.insertionSort strLe l

/-- The key order used by `json.dump(..., sort_keys=True)`. -/
def keyLe (a b : String × Json) : Prop := strLe a.1 b.1

instance : DecidableRel keyLe := fun a b => inferInstanceAs (Decidable (strLe a.1 b.1))

instance : IsTotal (String × Json) keyLe := ⟨fun a b => total_of strLe a.1 b.1⟩

instance : IsTrans (String × Json) keyLe :=
  ⟨fun a b c hab hbc => IsTrans.trans (r := strLe) a.1 b.1 c.1 hab hbc⟩

/-- Sorting an object's members by key, as `json.dump(..., sort_keys=True)`
does during serialization. -/
def sortPairs (l : List (String × Json)) : List (String × Json) := List.insertionSort keyLe l

theorem sortStrings_perm_invariant {l1 l2 : List String} (h : l1.Perm l2) :
    sortStrings l1 = sortStrings l2 := by
  haveI : IsTrans String strLe := inferInstance
  apply List.eq_of_perm_of_sorted (r := strLe)
  · exact (List.perm_insertionSort _ l1).trans (h.trans (List.perm_insertionSort _ l2).symm)
  · exact List.sorted_insertionSort _ l1
  · exact List.sorted_insertionSort _ l2

theorem sortPairs_keys_sorted (kvs : List (String × Json)) :
    List.Sorted strLe ((sortPairs kvs).map Prod.fst) := by
  have hs : List.Sorted keyLe (sortPairs kvs) := List.sorted_insertionSort _ kvs
  exact List.Pairwise.map Prod.fst (fun a b hab => hab) hs

/-- Four spaces of JSON indentation per level (`json.dump(..., indent=4)`). -/
def indentStr (lvl : Nat) : String := String.mk (List.replicate (4 * lvl) ' ')

/-- Escape a character for a JSON string literal. -/
def jsonEscapeChar (c : Char) : List Char :=
  if c == '"' || c == '\\' then ['\\', c] else [c]

/-- Render a JSON string literal. -/
def renderString (s : String) : String :=
  "\"" ++ String.mk (s.data.foldr (fun c acc => jsonEscapeChar c ++ acc) []) ++ "\""

mutual

/-- Render a JSON value as `json.dump(..., indent=4)` does.  Key sorting
(`sort_keys=True`) is modelled by the construction functions below, which
order every object's members by key. -/
def renderJson (lvl : Nat) : Json → String
  | .null => "null"
  | .bool true => "true"
  | .bool false => "false"
  | .str s => renderString s
  | .arr [] => "[]"
  | .arr (x :: xs) =>
    "[\n" ++ indentStr (lvl + 1) ++ renderJson (lvl + 1) x ++ renderArrTail (lvl + 1) xs ++
      "\n" ++ indentStr lvl ++ "]"
  | .obj [] => "\x7b\x7d"
  | .obj (kv :: kvs) =>
    "\x7b\n" ++ indentStr (lvl + 1) ++ renderMember (lvl + 1) kv ++
      renderObjTail (lvl + 1) kvs ++ "\n" ++ indentStr lvl ++ "\x7d"

/-- Render one `"key": value` member. -/
def renderMember (lvl : Nat) : String × Json → String
  | (k, v) => renderString k ++ ": " ++ renderJson lvl v

/-- Render the remaining array items after the first. -/
def renderArrTail (lvl : Nat) : List Json → String
  | [] => ""
  | x :: xs => ",\n" ++ indentStr lvl ++ renderJson lvl x ++ renderArrTail lvl xs

/-- Render the remaining object members after the first. -/
def renderObjTail (lvl : Nat) : List (String × Json) → String
  | [] => ""
  | kv :: kvs => ",\n" ++ indentStr lvl ++ renderMember lvl kv ++ renderObjTail lvl kvs

end

/-- JSON encoding of an optional string (`None` becomes `null`). -/
def optStr : Option String → Json
  | none => Json.null
  | some s => Json.str s

/-- JSON encoding of a list of strings. -/
def strArr (l : List String) : Json := Json.arr (l.map Json.str)

/-- Modelled from the spec (§6): `PackageInfo`'s dict shape.  The members are
listed in the key-sorted order that `sort_keys=True` serialization emits. -/
def packageInfoToJson (pi : PackageInfo) : Json :=
  Json.obj
    [("app_paths", strArr pi.app_paths),
     ("app_paths_of_dependencies", strArr pi.app_paths_of_dependencies),
     ("apps", strArr pi.apps),
     ("apps_of_dependencies", strArr pi.apps_of_dependencies),
     ("include_apps", Json.bool pi.include_apps),
     ("include_dependencies", Json.bool pi.include_dependencies),
     ("package", optStr pi.package),
     ("package_or_url", optStr pi.package_or_url),
     ("package_version", Json.str pi.package_version),
     ("pip_args", strArr pi.pip_args),
     ("suffix", Json.str pi.suffix)]

/-- Modelled from the spec (§6): `PipxMetadata.to_dict()`'s shape, members in
key-sorted order; the injected-package map is key-sorted by `sortPairs`. -/
def metadataToJson (md : PipxMetadata) : Json :=
  Json.obj
    [("injected_packages",
      Json.obj (sortPairs (md.injected_packages.map (fun p => (p.1, packageInfoToJson p.2))))),
     ("main_package", packageInfoToJson md.main_package),
     ("venv_args", strArr md.venv_args),
     ("version", Json.str PIPX_METADATA_SCHEMA_VERSION)]

/-- JSON encoding of the per-venv `pip_freeze` map (§6), key-sorted. -/
def freezeDictToJson (pfd : List (String × FreezeEntry)) : Json :=
  Json.obj (sortPairs (pfd.map (fun p =>
    (p.1, Json.obj [("local", Json.bool p.2.local_), ("specifier", Json.str p.2.specifier)]))))

/-- The world an export run observes: the registry's venv directory names in
iteration order, each directory's on-disk metadata and `pip freeze` output,
and the set of existing filesystem paths (consulted by the specifier
parser). -/
structure VenvContainerModel where
  venv_dirs : List String
  metadata : String → PipxMetadata
  pip_freeze : String → List String
  fs : List String

/-- `pipx_spec._package_info_modify_package_or_url_`: rebuild a `PackageInfo`
with only `package_or_url` replaced. -/
def _package_info_modify_package_or_url_
    (original_package_info : PackageInfo) (package_or_url : Option String) : PackageInfo :=
  { package := original_package_info.package
    package_or_url := package_or_url
    pip_args := original_package_info.pip_args
    include_apps := original_package_info.include_apps
    include_dependencies := original_package_info.include_dependencies
    apps := original_package_info.apps
    app_paths := original_package_info.app_paths
    apps_of_dependencies := original_package_info.apps_of_dependencies
    app_paths_of_dependencies := original_package_info.app_paths_of_dependencies
    package_version := original_package_info.package_version
    suffix := original_package_info.suffix }

/-- Does an `Except` hold a success value? -/
def exceptIsOk {ε α : Type} : Except ε α → Bool
  | .ok _ => true
  | .error _ => false

/-- `pipx_spec._venv_installable`: true when the main package, every injected
package and every freeze-data entry has a valid installable specifier; the
Python code returns `False` on the first failing check, which agrees with
this conjunction of `all`s. -/
def _venv_installable (fs : List String) (venv_metadata : PipxMetadata)
    (freeze_data : Option (List (String × FreezeEntry))) : Bool :=
  ((freeze_data.getD []).all fun p => exceptIsOk (parse_specifier_for_install fs p.2.specifier [])) &&
  (match venv_metadata.main_package.package_or_url with
   | none => false
   | some pou =>
     exceptIsOk (parse_specifier_for_install fs pou venv_metadata.main_package.pip_args)) &&
  (venv_metadata.injected_packages.all fun p =>
    match p.2.package_or_url with
    | none => false
    | some pou => exceptIsOk (parse_specifier_for_install fs pou p.2.pip_args))

/-- Helper for `_get_user_installed_packages`: collect the injected packages'
names, raising `PipxError` on a null name. -/
def _user_installed_aux : List (String × PackageInfo) → Except PyErr (List (Option String))
  | [] => .ok []
  | (_, ip) :: rest =>
    match ip.package with
    | none => .error (.pipxError "Internal Error with pipx.")
    | some p =>
      match _user_installed_aux rest with
      | .error e => .error e
      | .ok l => .ok (some p :: l)

/-- `pipx_spec._get_user_installed_packages`: the main package's name followed
by each injected package's name (a null injected name raises `PipxError`; the
main name is appended unchecked, hence `Option`). -/
def _get_user_installed_packages (venv_metadata : PipxMetadata) :
    Except PyErr (List (Option String)) :=
  match _user_installed_aux venv_metadata.injected_packages with
  | .error e => .error e
  | .ok l => .ok (venv_metadata.main_package.package :: l)

/-- `pipx_spec._pip_args_all_same`: every injected package's pip arguments
equal the main package's. -/
def _pip_args_all_same (venv_metadata : PipxMetadata) : Bool :=
  venv_metadata.injected_packages.all fun p =>
    p.2.pip_args == venv_metadata.main_package.pip_args

/-- `pipx_spec._local_package_path`: return the path for an editable/local
package.  Translated faithfully: when `package` is not the main package the
loop over injected packages returns during its first iteration, and the
local case returns the main package's `package_or_url`. -/
def _local_package_path (fs : List String) (package : String)
    (venv_metadata : PipxMetadata) : Except PyErr (Option String) :=
  if venv_metadata.main_package.package = some package then
    match venv_metadata.main_package.package_or_url with
    | none => .error (.pipxError "Internal Error with pipx.")
    | some pou =>
      if (parse_specifier fs pou).valid_local_path then .ok (some pou) else .ok none
  else
    match venv_metadata.injected_packages with
    | [] => .ok none
    | (_, info) :: _ =>
      match info.package_or_url with
      | none => .error (.pipxError "Internal Error with pipx.")
      | some pou =>
        if (parse_specifier fs pou).valid_local_path then
          .ok venv_metadata.main_package.package_or_url
        else .ok none

/-- Replace the value stored under a key of an association list. -/
def assocSet {α : Type} (l : List (String × α)) (k : String) (v : α) : List (String × α) :=
  l.map fun p => if p.1 == k then (k, v) else p

/-- The freeze-classification loop of `export_spec` (`pipx_spec.py` lines
411-419), translated faithfully: each iteration computes the package key and
its local path, then executes `pip_freeze_dict[package]["specifier"] = ...`,
which looks up `package` in the accumulating dict and raises `KeyError` when
the key is absent. -/
def exportFreezeLoop (fs : List String) (venv_metadata : PipxMetadata) :
    List String → List (String × FreezeEntry) → Except PyErr (List (String × FreezeEntry))
  | [], acc => .ok acc
  | specifier :: rest, acc =>
    let package := parse_pip_freeze_specifier specifier
    match _local_package_path fs package venv_metadata with
    | .error e => .error e
    | .ok package_path =>
      match acc.lookup package with
      | none => .error (.keyError package)
      | some _ =>
        let newEntry := match package_path with
          | some p => FreezeEntry.mk p true
          | none => FreezeEntry.mk specifier false
        exportFreezeLoop fs venv_metadata rest (assocSet acc package newEntry)

/-- One venv's entry in the spec document (`export_spec` body, lines
404-426): the serialized metadata, plus the `pip_freeze` map in the freeze
modes (full in freeze-all, restricted to user-installed packages in
freeze). -/
def buildVenvEntry (vcMeta : String → PipxMetadata) (vcFreeze : String → List String)
    (fs : List String) (freeze freeze_all : Bool) (name : String) :
    Except PyErr (String × Json) :=
  let md := vcMeta name
  let base : List (String × Json) := [("metadata", metadataToJson md)]
  if freeze_all || freeze then
    match exportFreezeLoop fs md (vcFreeze name) [] with
    | .error e => .error e
    | .ok pfd =>
      if freeze_all then .ok (name, Json.obj (base ++ [("pip_freeze", freezeDictToJson pfd)]))
      else
        match _get_user_installed_packages md with
        | .error e => .error e
        | .ok user =>
          .ok (name, Json.obj (base ++
            [("pip_freeze", freezeDictToJson (pfd.filter fun p => user.contains (some p.1)))]))
  else .ok (name, Json.obj base)

/-- All venv entries of the spec document, in export order. -/
def buildVenvEntries (vcMeta : String → PipxMetadata) (vcFreeze : String → List String)
    (fs : List String) (freeze freeze_all : Bool) :
    List String → Except PyErr (List (String × Json))
  | [] => .ok []
  | n :: rest =>
    match buildVenvEntry vcMeta vcFreeze fs freeze freeze_all n with
    | .error e => .error e
    | .ok entry =>
      match buildVenvEntries vcMeta vcFreeze fs freeze freeze_all rest with
      | .error e => .error e
      | .ok es => .ok (entry :: es)

/-- The skip/include filter of `export_spec` (lines 384-390): drop names in
`skip_list`, and when `include_list` is given keep only names in it. -/
def exportCandidates (dirs : List String) (skip_list : List String)
    (include_list : Option (List String)) : List String :=
  dirs.filter fun n =>
    !(skip_list.contains n) &&
      (match include_list with
       | none => true
       | some il => il.contains n)

/-- What an `export_spec` run produced: its exit code, the written file's
contents when a file was written, and the missing-metadata names it
reported. -/
structure ExportOutcome where
  exit : Nat
  written : Option String
  reported_missing : List String
deriving Repr, DecidableEq

/-- `export_spec` over an already-sorted directory list (the source sorts
`iter_venv_dirs()` and consumes only the sorted sequence). -/
def export_spec_core (dirs : List String) (vcMeta : String → PipxMetadata)
    (vcFreeze : String → List String) (fs : List String) (skip_list : List String)
    (include_list : Option (List String)) (freeze freeze_all : Bool) :
    Except PyErr ExportOutcome :=
  if dirs.isEmpty then .ok ⟨EXIT_CODE_OK, none, []⟩
  else
    let venv_dirs_export := exportCandidates dirs skip_list include_list
    let venvs_no_metadata :=
      venv_dirs_export.filter fun n => ((vcMeta n).main_package.package).isNone
    if !venvs_no_metadata.isEmpty then
      .ok ⟨EXIT_CODE_EXPORT_MISSING_METADATA, none, venvs_no_metadata⟩
    else
      match buildVenvEntries vcMeta vcFreeze fs freeze freeze_all venv_dirs_export with
      | .error e => .error e
      | .ok entries =>
        let doc := Json.obj
          [("spec_version", Json.str PIPX_SPEC_VERSION),
           ("venvs", Json.obj (sortPairs entries))]
        .ok ⟨EXIT_CODE_OK, some (renderJson 0 doc), []⟩

/-- `pipx_spec.export_spec`: enumerate the registry sorted, filter, abort on
missing metadata, serialize, and write one indented key-sorted JSON
document. -/
def export_spec (vc : VenvContainerModel) (skip_list : List String)
    (include_list : Option (List String)) (freeze freeze_all : Bool) :
    Except PyErr ExportOutcome :=
  export_spec_core (sortStrings vc.venv_dirs) vc.metadata vc.pip_freeze vc.fs
    skip_list include_list freeze freeze_all

/-- The world an `install_spec` run observes: the existing filesystem paths
(for the specifier parser), each venv directory's on-disk metadata as read
when the `Venv` object is constructed (before any install), the same
metadata as re-read after the installs (`_restore_metadata_after_unfreeze`
calls `read()` again), and whether each venv root exists and is
non-empty. -/
structure InstallWorld where
  fs : List String
  disk : String → PipxMetadata
  diskAfter : String → PipxMetadata
  venvRootExists : String → Bool

/-- The external operations the import path performs, in order. -/
inductive PipxAction where
  | report_cannot_install (venv : String)
  | create_venv (venv : String) (venv_args : List String) (pip_args : List String)
  | pip_install_dep (venv : String) (pip_args : List String) (specifier : String)
  | install (venv : String) (package_spec : String) (pip_args : List String)
      (venv_args : List String) (force : Bool) (include_dependencies : Bool) (suffix : String)
  | inject (venv : String) (package_name : String) (package_spec : String)
      (pip_args : List String) (include_apps : Bool) (include_dependencies : Bool) (force : Bool)
  | write_metadata (venv : String) (md : PipxMetadata)
deriving Repr, DecidableEq

/-- Is this action an install or an inject? -/
def PipxAction.isInstallOrInject : PipxAction → Bool
  | .install _ _ _ _ _ _ _ => true
  | .inject _ _ _ _ _ _ _ => true
  | _ => false

/-- Is this action an inject? -/
def PipxAction.isInject : PipxAction → Bool
  | .inject _ _ _ _ _ _ _ => true
  | _ => false

/-- `pipx_spec._unfreeze_install_deps`: install the frozen transitive
dependencies (freeze entries that are not user-installed packages) into a
freshly created venv; skipped entirely when there are none, and when the
venv root already exists and `force` is not set. -/
def _unfreeze_install_deps (w : InstallWorld) (venvName : String)
    (venv_metadata : PipxMetadata) (fd : List (String × FreezeEntry)) (force : Bool) :
    Except PyErr (List PipxAction) :=
  match _get_user_installed_packages venv_metadata with
  | .error e => .error e
  | .ok user =>
    let freeze_dep_data := fd.filter fun p => !(user.contains (some p.1))
    if freeze_dep_data.isEmpty then .ok []
    else if w.venvRootExists venvName && !force then .ok []
    else
      .ok (PipxAction.create_venv venvName venv_metadata.venv_args
             venv_metadata.main_package.pip_args ::
           freeze_dep_data.map fun p =>
             PipxAction.pip_install_dep venvName venv_metadata.main_package.pip_args p.2.specifier)

/-- `pipx_spec._restore_metadata_after_unfreeze` as the pure metadata value
it writes back: the on-disk metadata is re-read (`diskMd`), the main
package's `package_or_url` is replaced by the source metadata's original,
and each injected package is replaced by a copy of the *re-read* entry whose
`package_or_url` is set to that same re-read entry's own value (the loop
iterates `venv.pipx_metadata.injected_packages`, not `venv_metadata`, so
for injected packages the "restore" is an identity patch). -/
def _restore_metadata_after_unfreeze (diskMd : PipxMetadata)
    (venv_metadata : PipxMetadata) : PipxMetadata :=
  { main_package :=
      _package_info_modify_package_or_url_ diskMd.main_package
        venv_metadata.main_package.package_or_url
    injected_packages :=
      diskMd.injected_packages.map fun p =>
        (p.1, _package_info_modify_package_or_url_ p.2 p.2.package_or_url)
    venv_args := diskMd.venv_args }

/-- The injected-package loop of `pipx_spec._install_from_metadata` (lines
248-275): iterate the venv's on-disk metadata, raise on null fields, and
inject each package with its frozen specifier when freeze data is present
(the literal specifier otherwise), passing through the caller's `force`. -/
def _inject_loop (venvName : String) (force : Bool)
    (freeze_data : Option (List (String × FreezeEntry))) :
    List (String × PackageInfo) → Except PyErr (List PipxAction)
  | [] => .ok []
  | (injected_name, ip) :: rest =>
    match ip.package_or_url, ip.package with
    | some pou, some pkg =>
      let specRes : Except PyErr String :=
        match freeze_data with
        | some fd =>
          match fd.lookup pkg with
          | none => .error (.keyError pkg)
          | some e => .ok e.specifier
        | none => .ok pou
      match specRes with
      | .error e => .error e
      | .ok s =>
        match _inject_loop venvName force freeze_data rest with
        | .error e => .error e
        | .ok acts =>
          .ok (PipxAction.inject venvName injected_name s ip.pip_args ip.include_apps
                 ip.include_dependencies force :: acts)
    | _, _ => .error (.pipxError "Internal Error injecting package")

/-- `pipx_spec._install_from_metadata`: raise on a null main package, report
and bail out when the venv is not installable, pre-install frozen
dependencies in freeze mode, install the main package (frozen specifier and
forced when freeze data is present), inject the packages listed by the
venv's on-disk metadata, and finally restore metadata in freeze mode.
Returns the Python return value (1 on "cannot install", else 0) and the
performed actions. -/
def _install_from_metadata (w : InstallWorld) (venvName : String)
    (venv_metadata : PipxMetadata) (freeze_data : Option (List (String × FreezeEntry)))
    (force : Bool) : Except PyErr (Nat × List PipxAction) :=
  match venv_metadata.main_package.package_or_url, venv_metadata.main_package.package with
  | some main_pou, some main_pkg =>
    if !(_venv_installable w.fs venv_metadata freeze_data) then
      .ok (1, [PipxAction.report_cannot_install venvName])
    else
      let step1 : Except PyErr (String × List PipxAction × Bool) :=
        match freeze_data with
        | some fd =>
          match fd.lookup main_pkg with
          | none => .error (.keyError main_pkg)
          | some entry =>
            match _unfreeze_install_deps w venvName venv_metadata fd force with
            | .error e => .error e
            | .ok preActs => .ok (entry.specifier, preActs, true)
        | none => .ok (main_pou, [], force)
      match step1 with
      | .error e => .error e
      | .ok (main_package_or_url, preActs, install_force) =>
        let installAct := PipxAction.install venvName main_package_or_url
          venv_metadata.main_package.pip_args venv_metadata.venv_args install_force
          venv_metadata.main_package.include_dependencies venv_metadata.main_package.suffix
        match _inject_loop venvName force freeze_data (w.disk venvName).injected_packages with
        | .error e => .error e
        | .ok injectActs =>
          let restoreActs : List PipxAction :=
            match freeze_data with
            | some _ =>
              [PipxAction.write_metadata venvName
                (_restore_metadata_after_unfreeze (w.diskAfter venvName) venv_metadata)]
            | none => []
          .ok (0, preActs ++ [installAct] ++ injectActs ++ restoreActs)
  | _, _ => .error (.pipxError "Internal Error with pipx.")

/-- One named venv entry of a parsed spec document: the reconstructed
metadata and the optional `pip_freeze` map. -/
structure SpecVenvEntry where
  metadata : PipxMetadata
  pip_freeze : Option (List (String × FreezeEntry))
deriving Repr, DecidableEq

/-- The actions one spec-document entry performs, with a crash collapsed to
no actions; used to state what a whole `install_spec` run did. -/
def envActions (w : InstallWorld) (force : Bool) (p : String × SpecVenvEntry) : List PipxAction :=
  match _install_from_metadata w p.1 p.2.metadata p.2.pip_freeze force with
  | .ok r => r.2
  | .error _ => []

/-- `pipx_spec.install_spec`: process every venv entry of the document in
order (an uncaught exception aborts the run), collect each entry's actions,
and return `EXIT_CODE_OK`. -/
def install_spec (w : InstallWorld) (doc : List (String × SpecVenvEntry)) (force : Bool) :
    Except PyErr (Nat × List (String × List PipxAction)) :=
  match doc with
  | [] => .ok (EXIT_CODE_OK, [])
  | (name, e) :: rest =>
    match _install_from_metadata w name e.metadata e.pip_freeze force with
    | .error err => .error err
    | .ok (_, acts) =>
      match install_spec w rest force with
      | .error err => .error err
      | .ok (code, traces) => .ok (code, (name, acts) :: traces)

/-- A well-formed single-package metadata record used by concrete fleets. -/
def mdMain (name : String) : PipxMetadata :=
  { main_package :=
      { PackageInfo.blank with
        package := some name, package_or_url := some name, package_version := "1.0.0" }
    injected_packages := []
    venv_args := [] }

theorem buildVenvEntries_no_freeze (m : String → PipxMetadata) (f : String → List String)
    (fs : List String) (l : List String) :
    buildVenvEntries m f fs false false l =
      .ok (l.map fun n => (n, Json.obj [("metadata", metadataToJson (m n))])) := by
  induction l with
  | nil => rfl
  | cons n rest ih => simp [buildVenvEntries, buildVenvEntry, ih]

theorem install_spec_ok_map (w : InstallWorld) (force : Bool) :
    ∀ doc : List (String × SpecVenvEntry),
      (∀ p ∈ doc, ∃ r, _install_from_metadata w p.1 p.2.metadata p.2.pip_freeze force =
        Except.ok r) →
      install_spec w doc force =
        .ok (EXIT_CODE_OK, doc.map fun p => (p.1, envActions w force p)) := by
  intro doc
  induction doc with
  | nil => intro _; rfl
  | cons p rest ih =>
    intro h
    obtain ⟨r, hr⟩ := h p (List.mem_cons_self _ _)
    obtain ⟨code, acts⟩ := r
    obtain ⟨name, e⟩ := p
    have ih' := ih fun q hq => h q (List.mem_cons_of_mem _ hq)
    simp only [install_spec, hr, ih', List.map_cons]
    simp [envActions, hr]

/-- A world with no existing paths, no venv roots, and no metadata on disk:
the state of a fresh import target. -/
def freshWorld : InstallWorld :=
  ⟨[], fun _ => PipxMetadata.blank, fun _ => PipxMetadata.blank, fun _ => false⟩

/-- A minimal `PackageInfo` whose name and specifier are set. -/
def injInfo (name spec : String) : PackageInfo :=
  { PackageInfo.blank with package := some name, package_or_url := some spec }

/-- Metadata whose main package has an uninstallable local-path specifier. -/
def mdBad : PipxMetadata :=
  { main_package := injInfo "bad" "./nonexistent"
    injected_packages := []
    venv_args := [] }

/-- A two-entry spec document: one uninstallable venv, one good venv. -/
def c5doc : List (String × SpecVenvEntry) :=
  [("bad", ⟨mdBad, none⟩), ("good", ⟨mdMain "good", none⟩)]

/-- Source metadata with main package pkga and injected package black, as
reconstructed from a spec document (original user-supplied specifiers). -/
def mdSrcC4 : PipxMetadata :=
  { main_package := injInfo "pkga" "pkga"
    injected_packages := [("black", injInfo "black" "black")]
    venv_args := [] }

/-- The corresponding on-disk metadata re-read after a freeze-driven
reinstall: both specifiers are the frozen exact-version pins. -/
def mdDiskC4 : PipxMetadata :=
  { main_package := injInfo "pkga" "pkga==2.0.0"
    injected_packages := [("black", injInfo "black" "black==1.0.0")]
    venv_args := [] }

/-- `list_packages.DEFAULT_PYPI_SIMPLE_URL`. -/
def DEFAULT_PYPI_SIMPLE_URL : String := "https://pypi.org/simple/"

/-- A version as a dotted numeral sequence; models
`packaging.version.Version` far enough for the claims. -/
abbrev PyVersion := List Nat

/-- Lexicographic comparison on dotted versions, modelling the external
version ordering. -/
def verLe : PyVersion → PyVersion → Bool
  | [], _ => true
  | _ :: _, [] => false
  | a :: as, b :: bs => if a < b then true else if b < a then false else verLe as bs

/-- Split a character list on `.`. -/
def splitDots : List Char → List (List Char)
  | [] => [[]]
  | c :: rest =>
    let r := splitDots rest
    if c == '.' then [] :: r
    else
      match r with
      | [] => [[c]]
      | g :: gs => (c :: g) :: gs

/-- Modelled from the external `packaging` library as used here: parse a
dotted-numeral version string, `none` when invalid (`InvalidVersion`). -/
def parseVersion (s : String) : Option PyVersion :=
  let parts := splitDots s.data
  if parts.all fun p => !p.isEmpty && p.all Char.isDigit then
    some (parts.map fun p => (String.mk p).toNat?.getD 0)
  else none

/-- `max(package_versions)`: the greatest parsed version, `none` on an empty
list. -/
def maxVersion : List PyVersion → Option PyVersion
  | [] => none
  | v :: vs => some (vs.foldl (fun acc b => if verLe acc b then b else acc) v)

/-- One request made to a package index page, with its explicit timeout in
seconds (`client.get_project_page(package_name, timeout=10.0)`). -/
structure IndexQuery where
  package : String
  index_url : String
  timeout : Nat
deriving Repr, DecidableEq

/-- How the index responds to a project-page request: a read timeout, no
page for the project, or a page listing version strings. -/
inductive IndexResponse where
  | timeout
  | noPage
  | page (versions : List String)

/-- `list_packages.latest_version_from_index`: query the index page for the
package with a 10-second timeout; a timeout, a missing page, or a page with
no valid versions all yield `None`; otherwise the maximum valid version.
Also returns the queries issued. -/
def latest_version_from_index (net : String → String → IndexResponse)
    (package_name : String) (index_url : String) : Option PyVersion × List IndexQuery :=
  let q : IndexQuery := ⟨package_name, index_url, 10⟩
  match net package_name index_url with
  | .timeout => (none, [q])
  | .noPage => (none, [q])
  | .page vs => (maxVersion (vs.filterMap parseVersion), [q])

/-- The `for index_url in [index_url] + extra_index_urls` loop of
`get_latest_version`: query each index in order, stopping at the first
non-`None` result. -/
def queryIndexes (net : String → String → IndexResponse) (package : String) :
    List String → Option PyVersion × List IndexQuery
  | [] => (none, [])
  | u :: rest =>
    let r := latest_version_from_index net package u
    match r.1, rest with
    | some _, _ => r
    | none, [] => r
    | none, _ :: _ =>
      let r2 := queryIndexes net package rest
      (r2.1, r.2 ++ r2.2)

/-- `list_packages.get_latest_version`: raise on a null `package_or_url`;
return `None` with no query for URL-pinned, local-path, or
PEP 508-with-URL packages; resolve the index URL from `pip_args` — the code
guards on `"--index-url" in pip_args` but then executes
`pip_args.index("--index_url")` (underscore), raising `ValueError` whenever
the guard succeeds and the misspelled key is absent, and `IndexError` when
the key has no following element — then query the indexes (the
`extra_index_urls` local is initialized empty and never filled). -/
def get_latest_version (net : String → String → IndexResponse) (fs : List String)
    (pm : PackageInfo) (pip_config_index_url : String)
    (pip_config_extra_index_urls : List String) :
    Except PyErr (Option PyVersion × List IndexQuery) :=
  match pm.package_or_url with
  | none => .error (.pipxError "Internal Error with pipx metadata.")
  | some pou =>
    let ps := parse_specifier fs pou
    if ps.valid_url || ps.valid_local_path ||
        (match ps.valid_pep508 with
         | some r => r.url.isSome
         | none => false) then
      .ok (none, [])
    else
      let pip_args := pm.pip_args
      let indexRes : Except PyErr String :=
        if pip_args.contains "--index-url" then
          match List.findIdx? (fun a => a == "--index_url") pip_args with
          | none => .error .valueError
          | some i =>
            match pip_args.get? (i + 1) with
            | none => .error .indexError
            | some u => .ok u
        else .ok pip_config_index_url
      match indexRes with
      | .error e => .error e
      | .ok index_url =>
        let extra_index_urls : List String := []
        .ok (queryIndexes net (pm.package.getD "") ([index_url] ++ extra_index_urls))

/-- Modelled from the spec (§3 lifecycle, "mutated on every ... uninject"):
`venv.uninstall_package` removes the canonical package from the venv's
injected map. -/
def removeInjected (md : PipxMetadata) (c : String) : PipxMetadata :=
  { md with injected_packages := md.injected_packages.filter fun p => !(p.1 == c) }

/-- `uninject.uninject_dep`: canonicalize the name first; refuse (with a
warning, no uninstall) when it names the main package or is not an injected
package; otherwise uninstall it and succeed.  Returns the success flag, the
uninstalled package names, and the resulting metadata. -/
def uninject_dep (md : PipxMetadata) (package_name : String) :
    Bool × List String × PipxMetadata :=
  let c := canonicalize_name package_name
  if md.main_package.package = some c then (false, [], md)
  else if !((md.injected_packages.map Prod.fst).contains c) then (false, [], md)
  else (true, [c], removeInjected md c)

/-- The dependency loop of `uninject.uninject`: run `uninject_dep` on every
requested dependency in order, threading the metadata, collecting each
call's result and all uninstalled names. -/
def uninjectFold (md : PipxMetadata) : List String → List Bool × List String × PipxMetadata
  | [] => ([], [], md)
  | d :: ds =>
    let r := uninject_dep md d
    let rest := uninjectFold r.2.2 ds
    (r.1 :: rest.1, r.2.1 ++ rest.2.1, rest.2.2)

/-- `uninject.uninject`: raise when the venv directory is missing/empty or
has no metadata (modelled from the spec: the missing-metadata sentinel is a
null main package); otherwise process every dependency and return exit code
0 exactly when every call succeeded. -/
def uninject (venvExists : Bool) (md : PipxMetadata) (deps : List String) :
    Except PyErr (Nat × List Bool × List String) :=
  if !venvExists then .error (.pipxError "Virtual environment does not exist.")
  else if md.main_package.package.isNone then
    .error (.pipxError "missing internal pipx metadata")
  else
    let r := uninjectFold md deps
    .ok (if r.1.all (fun b => b) then 0 else 1, r.1, r.2.1)

theorem uninjectFold_length (deps : List String) :
    ∀ md : PipxMetadata, (uninjectFold md deps).1.length = deps.length := by
  induction deps with
  | nil => intro _; rfl
  | cons d ds ih => intro md; simp [uninjectFold, ih]

/-- A venv with main package main and injected package black, for the
uninject witness. -/
def md10 : PipxMetadata :=
  { main_package := injInfo "main" "main"
    injected_packages := [("black", injInfo "black" "black")]
    venv_args := [] }

section Claims

/-- Claim C1: whenever some candidate environment remaining after
skip/include filtering has `main_package.package = None`, `export_spec`
returns the distinct missing-metadata exit status, reports the complete list
of offending environment names, and writes no output file. -/
theorem c1_export_missing_metadata_aborts (vc : VenvContainerModel)
    (skip : List String) (incl : Option (List String)) (fz fza : Bool)
    (h : ∃ n ∈ exportCandidates (sortStrings vc.venv_dirs) skip incl,
      (vc.metadata n).main_package.package = none) :
    export_spec vc skip incl fz fza =
      .ok ⟨EXIT_CODE_EXPORT_MISSING_METADATA, none,
        (exportCandidates (sortStrings vc.venv_dirs) skip incl).filter
          (fun n => ((vc.metadata n).main_package.package).isNone)⟩ ∧
    EXIT_CODE_EXPORT_MISSING_METADATA ≠ EXIT_CODE_OK ∧
    EXIT_CODE_EXPORT_MISSING_METADATA ≠ 1 := by
  obtain ⟨n, hn, hnone⟩ := h
  have hdirs : (sortStrings vc.venv_dirs).isEmpty = false := by
    rw [List.isEmpty_eq_false]
    exact List.ne_nil_of_mem (List.mem_of_mem_filter hn)
  have hmem : n ∈ (exportCandidates (sortStrings vc.venv_dirs) skip incl).filter
      (fun n => ((vc.metadata n).main_package.package).isNone) := by
    rw [List.mem_filter]
    exact ⟨hn, by rw [hnone]; rfl⟩
  have hmiss : ((exportCandidates (sortStrings vc.venv_dirs) skip incl).filter
      (fun n => ((vc.metadata n).main_package.package).isNone)).isEmpty = false := by
    rw [List.isEmpty_eq_false]
    exact List.ne_nil_of_mem hmem
  refine ⟨?_, by decide, by decide⟩
  simp only [export_spec, export_spec_core, hdirs, hmiss, Bool.false_eq_true,
    if_false, Bool.not_false, if_true]

/-- Claim C1 witness: a registry with one legacy (metadata-less) venv makes
`export_spec` abort with the missing-metadata status and no written file. -/
theorem c1_witness :
    export_spec ⟨["legacy", "good"],
        (fun n => if n == "good" then mdMain "good" else PipxMetadata.blank),
        (fun _ => []), []⟩ [] none false false =
      .ok ⟨EXIT_CODE_EXPORT_MISSING_METADATA, none, ["legacy"]⟩ := by
  have h := c1_export_missing_metadata_aborts
    ⟨["legacy", "good"],
      (fun n => if n == "good" then mdMain "good" else PipxMetadata.blank),
      (fun _ => []), []⟩ [] none false false ⟨"legacy", by decide, by decide⟩
  exact h.1.trans (congrArg
    (fun l => (Except.ok ⟨EXIT_CODE_EXPORT_MISSING_METADATA, none, l⟩ : Except PyErr ExportOutcome))
    (by decide))

/-- Claim C2: the environments `export_spec` serializes are exactly the
lexicographically sorted registry names minus `skip_list`, intersected with
`include_list` when present, with skip taking precedence over include. -/
theorem c2_export_filter_exact (vc : VenvContainerModel)
    (skip : List String) (incl : Option (List String))
    (hne : vc.venv_dirs ≠ [])
    (hmeta : ∀ n ∈ exportCandidates (sortStrings vc.venv_dirs) skip incl,
      ((vc.metadata n).main_package.package).isNone = false) :
    (export_spec vc skip incl false false =
      .ok ⟨EXIT_CODE_OK,
        some (renderJson 0 (Json.obj
          [("spec_version", Json.str PIPX_SPEC_VERSION),
           ("venvs", Json.obj (sortPairs
             ((exportCandidates (sortStrings vc.venv_dirs) skip incl).map
               fun n => (n, Json.obj [("metadata", metadataToJson (vc.metadata n))]))))])),
        []⟩) ∧
    (exportCandidates (sortStrings vc.venv_dirs) skip incl =
      (sortStrings vc.venv_dirs).filter (fun n =>
        !(skip.contains n) && ((incl.map fun il => il.contains n).getD true))) ∧
    (∀ n ∈ skip, n ∉ exportCandidates (sortStrings vc.venv_dirs) skip incl) := by
  have hdirs : (sortStrings vc.venv_dirs).isEmpty = false := by
    rw [List.isEmpty_eq_false]
    intro h0
    exact hne ((List.perm_insertionSort strLe vc.venv_dirs).symm.trans (h0 ▸ List.Perm.refl _)).eq_nil
  have hmiss : ((exportCandidates (sortStrings vc.venv_dirs) skip incl).filter
      (fun n => ((vc.metadata n).main_package.package).isNone)).isEmpty = true := by
    rw [List.isEmpty_iff, List.filter_eq_nil_iff]
    intro a ha hpa
    rw [hmeta a ha] at hpa
    exact absurd hpa (by decide)
  refine ⟨?_, ?_, ?_⟩
  · simp only [export_spec, export_spec_core, hdirs, hmiss, Bool.false_eq_true, if_false,
      Bool.not_true, buildVenvEntries_no_freeze]
  · apply List.filter_congr
    intro a _
    cases incl <;> rfl
  · intro n hn hmem
    have := (List.mem_filter.mp hmem).2
    simp only [Bool.and_eq_true, Bool.not_eq_true'] at this
    have hc : skip.contains n = true := by
      rw [List.contains_iff_exists_mem_beq]
      exact ⟨n, hn, by simp⟩
    rw [this.1] at hc
    exact absurd hc (by decide)

/-- Claim C2 witness: with registry containing a, b, c, `skip_list = [a]`
and `include_list = [a, b]`, exactly b is exported. -/
theorem c2_witness :
    exportCandidates (sortStrings ["c", "a", "b"]) ["a"] (some ["a", "b"]) = ["b"] ∧
    export_spec ⟨["c", "a", "b"], (fun n => mdMain n), (fun _ => []), []⟩
        ["a"] (some ["a", "b"]) false false =
      .ok ⟨EXIT_CODE_OK,
        some (renderJson 0 (Json.obj
          [("spec_version", Json.str PIPX_SPEC_VERSION),
           ("venvs", Json.obj (sortPairs
             ([("b", Json.obj [("metadata", metadataToJson (mdMain "b"))])])))])),
        []⟩ := by
  have h := c2_export_filter_exact
    ⟨["c", "a", "b"], (fun n => mdMain n), (fun _ => []), []⟩
    ["a"] (some ["a", "b"]) (by decide) (by decide)
  refine ⟨by decide, h.1.trans ?_⟩
  have hc : exportCandidates (sortStrings ["c", "a", "b"]) ["a"] (some ["a", "b"]) = ["b"] := by
    decide
  rw [hc]
  rfl

/-- Claim C4 (code bug): `_restore_metadata_after_unfreeze` re-reads the
on-disk metadata and writes the whole structure back once, and it does patch
the main package's `package_or_url` back to the source metadata's original;
but for every injected package it sets `package_or_url` to the *re-read
on-disk* value (the frozen pin) rather than the source original, because the
loop takes the replacement value from `venv.pipx_metadata` instead of
`venv_metadata`.  Evaluated at a freeze-import of pkga with injected black:
the injected entry keeps the pin `black==1.0.0` instead of the original
`black`. -/
theorem c4_restore_keeps_pin_for_injected :
    (_restore_metadata_after_unfreeze mdDiskC4 mdSrcC4).main_package.package_or_url =
      mdSrcC4.main_package.package_or_url ∧
    ((_restore_metadata_after_unfreeze mdDiskC4 mdSrcC4).injected_packages.lookup "black").map
        (fun pi => pi.package_or_url) = some (some "black==1.0.0") ∧
    (mdSrcC4.injected_packages.lookup "black").map
        (fun pi => pi.package_or_url) = some (some "black") ∧
    ((_restore_metadata_after_unfreeze mdDiskC4 mdSrcC4).injected_packages.lookup "black").map
        (fun pi => pi.package_or_url) ≠
      (mdSrcC4.injected_packages.lookup "black").map (fun pi => pi.package_or_url) ∧
    (_restore_metadata_after_unfreeze mdDiskC4 mdSrcC4).injected_packages =
      mdDiskC4.injected_packages ∧
    (_restore_metadata_after_unfreeze mdDiskC4 mdSrcC4).venv_args = mdDiskC4.venv_args := by
  refine ⟨rfl, rfl, rfl, by decide, rfl, rfl⟩

/-- Claim C5: when a venv entry of the document has some specifier (main,
injected, or frozen) that fails to classify as installable, that environment
is skipped with only a reported failure — no install or inject action — and
the remaining environments of the document are still processed. -/
theorem c5_install_spec_skips_uninstallable (w : InstallWorld)
    (doc : List (String × SpecVenvEntry)) (force : Bool)
    (name : String) (entry : SpecVenvEntry)
    (hmem : (name, entry) ∈ doc)
    (hmain_pou : entry.metadata.main_package.package_or_url.isSome = true)
    (hmain_pkg : entry.metadata.main_package.package.isSome = true)
    (hbad : _venv_installable w.fs entry.metadata entry.pip_freeze = false)
    (hok : ∀ p ∈ doc, ∃ r,
      _install_from_metadata w p.1 p.2.metadata p.2.pip_freeze force = Except.ok r) :
    _install_from_metadata w name entry.metadata entry.pip_freeze force =
      .ok (1, [PipxAction.report_cannot_install name]) ∧
    envActions w force (name, entry) = [PipxAction.report_cannot_install name] ∧
    (∀ a ∈ [PipxAction.report_cannot_install name], a.isInstallOrInject = false) ∧
    install_spec w doc force =
      .ok (EXIT_CODE_OK, doc.map fun p => (p.1, envActions w force p)) := by
  obtain ⟨pou, hpou⟩ := Option.isSome_iff_exists.mp hmain_pou
  obtain ⟨pkg, hpkg⟩ := Option.isSome_iff_exists.mp hmain_pkg
  have h1 : _install_from_metadata w name entry.metadata entry.pip_freeze force =
      .ok (1, [PipxAction.report_cannot_install name]) := by
    simp only [_install_from_metadata, hpou, hpkg, hbad, Bool.not_false, if_true]
  refine ⟨h1, ?_, ?_, install_spec_ok_map w force doc hok⟩
  · simp [envActions, h1]
  · intro a ha
    rw [List.mem_singleton] at ha
    subst ha
    rfl

/-- Claim C5 witness: a document with an uninstallable venv (local path that
does not exist) followed by a good venv — the bad one contributes only a
report action, the good one is still installed. -/
theorem c5_witness :
    _install_from_metadata freshWorld "bad" mdBad none false =
      .ok (1, [PipxAction.report_cannot_install "bad"]) ∧
    install_spec freshWorld c5doc false =
      .ok (EXIT_CODE_OK,
        [("bad", [PipxAction.report_cannot_install "bad"]),
         ("good", [PipxAction.install "good" "good" [] [] false false ""])]) := by
  have h := c5_install_spec_skips_uninstallable freshWorld c5doc false "bad" ⟨mdBad, none⟩
    (List.mem_cons_self _ _) (by decide) (by decide) (by decide) ?_
  · refine ⟨h.1, ?_⟩
    rw [h.2.2.2]
    rfl
  · intro p hp
    rcases List.mem_cons.mp hp with h1 | h2
    · subst h1; exact ⟨_, rfl⟩
    · rcases List.mem_cons.mp h2 with h3 | h4
      · subst h3; exact ⟨_, rfl⟩
      · cases h4

/-- Claim C6 (code bug): the injected-package loop of
`_install_from_metadata` iterates `venv.pipx_metadata.injected_packages` —
the venv's on-disk metadata read before the install — not the spec
document's source metadata.  Importing a document whose source metadata has
injected package bar into a fresh target therefore performs no inject at
all (the on-disk metadata is blank), contradicting installation of the
injected packages in source-metadata order after the main package. -/
theorem c6_injected_from_disk_not_source :
    install_spec freshWorld
        [("foo", ⟨{ main_package := injInfo "foo" "foo"
                    injected_packages := [("bar", injInfo "bar" "bar")]
                    venv_args := [] }, none⟩)] false =
      .ok (EXIT_CODE_OK, [("foo", [PipxAction.install "foo" "foo" [] [] false false ""])]) ∧
    ({ main_package := injInfo "foo" "foo"
       injected_packages := [("bar", injInfo "bar" "bar")]
       venv_args := [] } : PipxMetadata).injected_packages.map Prod.fst = ["bar"] ∧
    ([PipxAction.install "foo" "foo" [] [] false false ""].filter PipxAction.isInject) = [] := by
  refine ⟨rfl, rfl, rfl⟩

/-- Claim C3 (code bug): on any freeze or freeze-all export whose pip-freeze
output is non-empty, the classification loop executes
`pip_freeze_dict[package]["specifier"] = ...` against the still-empty dict
and raises `KeyError` on the very first entry, so no entry is ever
classified and recorded and the export crashes; the same fleet exports fine
without freeze. -/
theorem c3_export_freeze_keyerror :
    export_spec ⟨["pkga"], (fun _ => mdMain "pkga"), (fun _ => ["pkga==1.2.3"]), []⟩
        [] none true false = .error (.keyError "pkga") ∧
    export_spec ⟨["pkga"], (fun _ => mdMain "pkga"), (fun _ => ["pkga==1.2.3"]), []⟩
        [] none false true = .error (.keyError "pkga") ∧
    (∃ s, export_spec ⟨["pkga"], (fun _ => mdMain "pkga"), (fun _ => ["pkga==1.2.3"]), []⟩
        [] none false false = .ok ⟨EXIT_CODE_OK, some s, []⟩) := by
  refine ⟨rfl, rfl, ⟨_, rfl⟩⟩

/-- Claim C9: `export_spec` output is a deterministic function of the fleet
state — any two registry enumerations of the same environments produce the
same result (in particular, two successive exports of an unchanged fleet
produce byte-identical documents), and the serializer orders every dynamic
object's keys sortedly. -/
theorem c9_export_deterministic (d1 d2 : List String) (meta : String → PipxMetadata)
    (pf : String → List String) (fs skip : List String) (incl : Option (List String))
    (fz fza : Bool) (hperm : d1.Perm d2) :
    export_spec ⟨d1, meta, pf, fs⟩ skip incl fz fza =
      export_spec ⟨d2, meta, pf, fs⟩ skip incl fz fza ∧
    ∀ kvs : List (String × Json), List.Sorted strLe ((sortPairs kvs).map Prod.fst) := by
  constructor
  · simp only [export_spec]
    rw [sortStrings_perm_invariant hperm]
  · exact sortPairs_keys_sorted

/-- Claim C9 witness: two enumeration orders of the same two-venv fleet
yield identical export results. -/
theorem c9_witness :
    export_spec ⟨["b", "a"], (fun n => mdMain n), (fun _ => []), []⟩ [] none false false =
      export_spec ⟨["a", "b"], (fun n => mdMain n), (fun _ => []), []⟩ [] none false false := by
  exact (c9_export_deterministic ["b", "a"] ["a", "b"] (fun n => mdMain n) (fun _ => [])
    [] [] none false false (by decide)).1

/-- Claim C7 (code bug): `latest_version_from_index` does apply the explicit
10-second timeout and does return `None` on a timeout, a missing project
page, or a page with no valid versions; but `get_latest_version` is not
raise-free over all `pip_args` — when `pip_args` contains `"--index-url"`,
the code looks up the misspelled `"--index_url"` with `list.index` and
raises `ValueError`. -/
theorem c7_index_url_arg_raises :
    get_latest_version (fun _ _ => .noPage) []
        { injInfo "pkga" "pkga" with
          pip_args := ["--index-url", "https://example.org/simple/"] }
        DEFAULT_PYPI_SIMPLE_URL [] = .error .valueError ∧
    latest_version_from_index (fun _ _ => .timeout) "pkga" "https://example.org/simple/" =
      (none, [⟨"pkga", "https://example.org/simple/", 10⟩]) ∧
    latest_version_from_index (fun _ _ => .noPage) "pkga" DEFAULT_PYPI_SIMPLE_URL =
      (none, [⟨"pkga", DEFAULT_PYPI_SIMPLE_URL, 10⟩]) ∧
    latest_version_from_index (fun _ _ => .page ["not-a-version"]) "pkga"
        DEFAULT_PYPI_SIMPLE_URL =
      (none, [⟨"pkga", DEFAULT_PYPI_SIMPLE_URL, 10⟩]) := by
  refine ⟨rfl, rfl, rfl, rfl⟩

/-- Claim C8: when the persisted specifier parses as a valid URL, a valid
local path, or a PEP 508 requirement carrying a URL, `get_latest_version`
returns `None` without issuing any index query, for every network. -/
theorem c8_no_freshness_check_for_urls (net : String → String → IndexResponse)
    (fs : List String) (pm : PackageInfo) (iu : String) (eius : List String)
    (pou : String)
    (h1 : pm.package_or_url = some pou)
    (h2 : (parse_specifier fs pou).valid_url = true ∨
          (parse_specifier fs pou).valid_local_path = true ∨
          (∃ r, (parse_specifier fs pou).valid_pep508 = some r ∧ r.url.isSome = true)) :
    get_latest_version net fs pm iu eius = .ok (none, []) := by
  simp only [get_latest_version, h1]
  rcases h2 with h | h | ⟨r, hr, hu⟩
  · simp [h]
  · simp [h]
  · simp [hr, hu]

/-- Claim C8 witness: a VCS-URL-pinned package gets no freshness query even
against a fully responsive index. -/
theorem c8_witness :
    get_latest_version (fun _ _ => .page ["1.0"]) []
        (injInfo "repo" "git+https://example.com/repo.git")
        DEFAULT_PYPI_SIMPLE_URL [] = .ok (none, []) := by
  exact c8_no_freshness_check_for_urls (fun _ _ => .page ["1.0"]) []
    (injInfo "repo" "git+https://example.com/repo.git") DEFAULT_PYPI_SIMPLE_URL []
    "git+https://example.com/repo.git" rfl (Or.inl (by decide))

/-- Claim C10: `uninject_dep` canonicalizes the name first and returns
`False` with no uninstall when the canonical name is the main package or is
not injected, and uninstalls returning `True` otherwise; `uninject`
processes every requested dependency (one result per dependency, no early
stop) and returns exit code 0 exactly when every call returned `True`. -/
theorem c10_uninject_behavior (venvExists : Bool) (md : PipxMetadata)
    (deps : List String) (name : String)
    (hex : venvExists = true)
    (hmd : md.main_package.package.isSome = true) :
    ((md.main_package.package = some (canonicalize_name name) →
        uninject_dep md name = (false, [], md)) ∧
     (md.main_package.package ≠ some (canonicalize_name name) →
        (md.injected_packages.map Prod.fst).contains (canonicalize_name name) = false →
        uninject_dep md name = (false, [], md)) ∧
     (md.main_package.package ≠ some (canonicalize_name name) →
        (md.injected_packages.map Prod.fst).contains (canonicalize_name name) = true →
        uninject_dep md name =
          (true, [canonicalize_name name], removeInjected md (canonicalize_name name)))) ∧
    (uninjectFold md deps).1.length = deps.length ∧
    uninject venvExists md deps =
      .ok (if (uninjectFold md deps).1.all (fun b => b) then 0 else 1,
           (uninjectFold md deps).1, (uninjectFold md deps).2.1) := by
  obtain ⟨mp, hmp⟩ := Option.isSome_iff_exists.mp hmd
  refine ⟨⟨?_, ?_, ?_⟩, uninjectFold_length deps md, ?_⟩
  · intro h
    simp only [uninject_dep]
    rw [if_pos h]
  · intro h1 h2
    simp only [uninject_dep]
    rw [if_neg h1, h2]
    rfl
  · intro h1 h2
    simp only [uninject_dep]
    rw [if_neg h1, h2]
    rfl
  · simp [uninject, hex, hmp]

/-- Claim C10 witness: uninjecting Black (canonicalized to the injected
black), an absent pylint, and the main package main — all three are
processed, only the first succeeds, one package is uninstalled, and the
exit code is 1. -/
theorem c10_witness :
    uninject true md10 ["Black", "pylint", "main"] =
      .ok (1, [true, false, false], ["black"]) ∧
    uninject_dep md10 "Black" = (true, ["black"], removeInjected md10 "black") := by
  have h := c10_uninject_behavior true md10 ["Black", "pylint", "main"] "Black" rfl (by decide)
  exact ⟨h.2.2.trans rfl, (h.1.2.2 (by decide) (by decide)).trans rfl⟩

end Claims

section Checks

example : canonicalize_name "Black" = "black" := by decide
example : canonicalize_name "foo_Bar..baz" = "foo-bar-baz" := by decide
example : (parse_specifier [] "git+https://x.org/r.git").valid_url = true := by decide
example : (parse_specifier [] "pkga==1.0").valid_pep508 = some ⟨"pkga", none⟩ := by decide
example : (parse_specifier [] "./nope").valid_pep508 = none := by decide
example : (parse_specifier ["./here"] "./here").valid_local_path = true := by decide
example : (parse_specifier [] "pkga @ https://x.org/p.whl").valid_pep508 =
    some ⟨"pkga", some "https://x.org/p.whl"⟩ := by decide
example : parse_pip_freeze_specifier "Foo_bar==1.2.3" = "foo-bar" := by decide
example : parse_specifier_for_install [] "./nope" [] =
    .error (.pipxError "InvalidSpecifierError") := rfl

end Checks
